import Mathlib

/-!
Verification of the barretenberg excerpt:
* `smt_verification/util/smt_util.hpp` — the witness-dump utilities
  `default_model` and `default_model_single`;
* `smt_verification/circuit/circuit.test.cpp` — the equivalence-checker tests;
* `vm2/generated/relations/lookups_bc_decomposition.hpp` — the generated
  lookup-relation binding.

The dump utilities are embedded as pure string-producing functions: a
`cvc5::Term` is represented by its `toString` image (every use of a term in
the dump code goes through `toString` and the solver's name-keyed model map),
and the solver's `model` by a function from term names to value strings.
-/

namespace SmtUtil

/-- The part of `smt_circuit::Circuit` the dump utilities touch:
`get_num_vars()`, `real_variable_index`, `symbolic_vars` (each term stands
for its `toString`), and named-term lookup `c[name]` (again as `toString`). -/
structure SmtCircuit where
  numVars : Nat
  realVariableIndex : Nat → Nat
  symbolicVars : Nat → String
  termOfName : String → String

/-- The term `default_model` collects for index `i`:
`c.symbolic_vars[c.real_variable_index[i]]`. -/
def vtermsOf (c : SmtCircuit) (i : Nat) : String :=
  c.symbolicVars (c.realVariableIndex i)

/-- The text the loop body of `default_model` writes for index `i`
(`std::endl` rendered as a newline). -/
def default_model_fileLine (c1 c2 : SmtCircuit) (m : String → String) (i : Nat) : String :=
  let vname1 := vtermsOf c1 i
  let vname2 := vtermsOf c2 i
  if c1.realVariableIndex i = i then
    "\x7b" ++ m vname1 ++ ", " ++ m vname2 ++ "\x7d" ++ ",           // " ++
      vname1 ++ ", " ++ vname2 ++ "\n"
  else
    "\x7b" ++ m vname1 ++ ", " ++ m vname2 ++ "\x7d" ++ ",           // " ++
      vname1 ++ " ," ++ vname2 ++ " -> " ++ Nat.repr (c1.realVariableIndex i) ++ "\n"

/-- The whole file `default_model` writes to `fname`. -/
def default_model_file (c1 c2 : SmtCircuit) (m : String → String) : String :=
  "w12 = \x7b\n" ++
    (List.range c1.numVars).foldl (fun acc i => acc ++ default_model_fileLine c1 c2 m i) "" ++
    "\x7d;"

/-- The `info` lines `default_model` prints for the `special` names. -/
def default_model_info (special : List String) (c1 c2 : SmtCircuit) (m : String → String) :
    List String :=
  special.map (fun v => v ++ "_1, " ++ v ++ "_2 = " ++ m (c1.termOfName v) ++ ", " ++
    m (c2.termOfName v))

/-- The text the loop body of `default_model_single` writes for index `i`;
here the collected term is `c.symbolic_vars[i]` itself. -/
def default_model_single_fileLine (c : SmtCircuit) (m : String → String) (i : Nat) : String :=
  let vname := c.symbolicVars i
  if c.realVariableIndex i = i then
    m vname ++ ",              // " ++ vname ++ "\n"
  else
    m vname ++ ",              // " ++ vname ++ " -> " ++ Nat.repr (c.realVariableIndex i) ++ "\n"

/-- The whole file `default_model_single` writes to `fname`. -/
def default_model_single_file (c : SmtCircuit) (m : String → String) : String :=
  "w = \x7b\n" ++
    (List.range c.numVars).foldl (fun acc i => acc ++ default_model_single_fileLine c m i) "" ++
    "\x7d;"

/-- The `info` lines `default_model_single` prints for the `special` names. -/
def default_model_single_info (special : List String) (c : SmtCircuit) (m : String → String) :
    List String :=
  special.map (fun v => v ++ " = " ++ m (c.termOfName v))

/-- A concrete two-variable circuit whose index 1 is aliased to index 0
(`real_variable_index = [0, 0]`), used to evaluate the dump functions. -/
def cW : SmtCircuit where
  numVars := 2
  realVariableIndex := fun i => if i = 1 then 0 else i
  symbolicVars := fun i => "w_" ++ Nat.repr i
  termOfName := fun s => s

/-- A concrete solver model assigning each term name to itself. -/
def mW : String → String := fun s => s

end SmtUtil

namespace avm2

/-- The columns of `lookups_bc_decomposition.hpp` (from the `Column` enum of
`columns.hpp`, restricted to the columns this file binds). -/
inductive Column where
  | bc_decomposition_sel
  | bc_decomposition_bytes_to_read
  | bc_decomposition_bytes_to_read_unary
  | precomputed_sel_unary
  | precomputed_clk
  | precomputed_as_unary
  | lookup_bytecode_to_read_unary_counts
  | lookup_bytecode_to_read_unary_inv
  deriving DecidableEq

/-- One row of entities: the value of each bound column. -/
structure AllEntities (F : Type) where
  lookup_bytecode_to_read_unary_inv : F
  lookup_bytecode_to_read_unary_counts : F
  bc_decomposition_sel : F
  precomputed_sel_unary : F
  bc_decomposition_bytes_to_read : F
  bc_decomposition_bytes_to_read_unary : F
  precomputed_clk : F
  precomputed_as_unary : F

/-- The value a row holds in a given column. -/
def colVal {F : Type} (e : AllEntities F) : Column → F
  | .bc_decomposition_sel => e.bc_decomposition_sel
  | .bc_decomposition_bytes_to_read => e.bc_decomposition_bytes_to_read
  | .bc_decomposition_bytes_to_read_unary => e.bc_decomposition_bytes_to_read_unary
  | .precomputed_sel_unary => e.precomputed_sel_unary
  | .precomputed_clk => e.precomputed_clk
  | .precomputed_as_unary => e.precomputed_as_unary
  | .lookup_bytecode_to_read_unary_counts => e.lookup_bytecode_to_read_unary_counts
  | .lookup_bytecode_to_read_unary_inv => e.lookup_bytecode_to_read_unary_inv

/-- The static data of a lookup settings class, as the generated file fills it. -/
structure LookupSettings where
  READ_TERMS : Nat
  WRITE_TERMS : Nat
  LOOKUP_TUPLE_SIZE : Nat
  INVERSE_EXISTS_POLYNOMIAL_DEGREE : Nat
  READ_TERM_DEGREE : Nat
  WRITE_TERM_DEGREE : Nat
  SRC_SELECTOR : Column
  DST_SELECTOR : Column
  COUNTS : Column
  INVERSES : Column
  SRC_COLUMNS : List Column
  DST_COLUMNS : List Column

/-- The settings class `lookup_bytecode_to_read_unary_lookup_settings`. -/
def lookup_bytecode_to_read_unary_lookup_settings : LookupSettings where
  READ_TERMS := 1
  WRITE_TERMS := 1
  LOOKUP_TUPLE_SIZE := 2
  INVERSE_EXISTS_POLYNOMIAL_DEGREE := 4
  READ_TERM_DEGREE := 0
  WRITE_TERM_DEGREE := 0
  SRC_SELECTOR := .bc_decomposition_sel
  DST_SELECTOR := .precomputed_sel_unary
  COUNTS := .lookup_bytecode_to_read_unary_counts
  INVERSES := .lookup_bytecode_to_read_unary_inv
  SRC_COLUMNS := [ .bc_decomposition_bytes_to_read, .bc_decomposition_bytes_to_read_unary ]
  DST_COLUMNS := [ .precomputed_clk, .precomputed_as_unary ]

/-- `inverse_polynomial_is_computed_at_row`:
`in.bc_decomposition_sel == 1 || in.precomputed_sel_unary == 1`. -/
def inverse_polynomial_is_computed_at_row {F : Type} [One F] (e : AllEntities F) : Prop :=
  e.bc_decomposition_sel = 1 ∨ e.precomputed_sel_unary = 1

/-- `compute_inverse_exists`:
`is_operation + is_table_entry - is_operation * is_table_entry`. -/
def compute_inverse_exists {F : Type} [CommRing F] (e : AllEntities F) : F :=
  e.bc_decomposition_sel + e.precomputed_sel_unary -
    e.bc_decomposition_sel * e.precomputed_sel_unary

/-- `get_entities`: the fixed tuple of the 8 bound column references. -/
def get_entities {F : Type} (e : AllEntities F) : List F :=
  [ e.lookup_bytecode_to_read_unary_inv,
    e.lookup_bytecode_to_read_unary_counts,
    e.bc_decomposition_sel,
    e.precomputed_sel_unary,
    e.bc_decomposition_bytes_to_read,
    e.bc_decomposition_bytes_to_read_unary,
    e.precomputed_clk,
    e.precomputed_as_unary ]

/-- `get_const_entities` forwards to `get_entities`. -/
def get_const_entities {F : Type} (e : AllEntities F) : List F :=
  get_entities e

/-- `get_nonconst_entities` forwards to `get_entities`. -/
def get_nonconst_entities {F : Type} (e : AllEntities F) : List F :=
  get_entities e

/-- Modelled from the spec: `GenericLookupRelation` is not part of the
excerpt; the spec describes its constraint as "a constraint type enforcing
that certain column tuples in a proof table appear in a reference table".
A settings class is read through its selector and tuple columns: every row
selected by the source selector must have its source-column tuple among the
destination-column tuples of rows selected by the destination selector. -/
def genericLookupEnforces {F : Type} [One F] (S : LookupSettings)
    (trace : List (AllEntities F)) : Prop :=
  ∀ row ∈ trace, colVal row S.SRC_SELECTOR = 1 →
    ∃ row' ∈ trace, colVal row' S.DST_SELECTOR = 1 ∧
      S.SRC_COLUMNS.map (colVal row) = S.DST_COLUMNS.map (colVal row')

/-- Modelled from the spec: the generated class
`lookup_bytecode_to_read_unary_relation` derives from the unseen
`GenericLookupRelation` template instantiated with the settings class and
declares nothing but the constant `NAME`, so its behavior is whatever the
generic template yields at those settings. `G` stands for the generic
template's (unknown) behavior as a function of the settings. -/
def lookup_bytecode_to_read_unary_relation {α : Type} (G : LookupSettings → α) : String × α :=
  ( "LOOKUP_BYTECODE_TO_READ_UNARY", G lookup_bytecode_to_read_unary_lookup_settings )

/-- A concrete row of `Int` entities with only the source selector set. -/
def rowW : AllEntities Int where
  lookup_bytecode_to_read_unary_inv := 0
  lookup_bytecode_to_read_unary_counts := 0
  bc_decomposition_sel := 1
  precomputed_sel_unary := 0
  bc_decomposition_bytes_to_read := 0
  bc_decomposition_bytes_to_read_unary := 0
  precomputed_clk := 0
  precomputed_as_unary := 0

end avm2

namespace CircuitTests

/-- Modelled from the spec: the `Solver`, the `FFTerm` algebra and the
circuit-to-SMT translation are not part of the excerpt. A symbolic witness is
an assignment of field elements; `FFTerm` division is field division with the
divisor asserted nonzero; `check()` returning false is unsatisfiability of
the asserted constraints. `TEST(circuit, expressionTrue)` builds the circuit
`c = (a + a) / (b + b + b)` and asserts `cr = (2 * a1) / (2 * b1 + b1)` and
`c1 != cr`. -/
def expressionTrueSystem (F : Type) [Field F] (a b c cr : F) : Prop :=
  b + b + b ≠ 0 ∧ c = (a + a) / (b + b + b) ∧
    2 * b + b ≠ 0 ∧ cr = (2 * a) / (2 * b + b) ∧ c ≠ cr

/-- Modelled from the spec: as `expressionTrueSystem`, for
`TEST(circuit, multiplicationTrueKind)`: the circuit
`c = (a + a) / (b + b + b)` with the assertions `cr * 3 * b1 == 2 * a1`
and `c1 != cr`. -/
def multiplicationTrueKindSystem (F : Type) [Field F] (a b c cr : F) : Prop :=
  b + b + b ≠ 0 ∧ c = (a + a) / (b + b + b) ∧
    cr * 3 * b = 2 * a ∧ c ≠ cr

/-- Modelled from the spec: as `expressionTrueSystem`, for
`TEST(circuit, multiplicationFalse)`: the mistaken circuit
`c = a / (b + b + b)` with the assertions `cr = (2 * a1) / (3 * b1)` and
`c1 != cr`. -/
def multiplicationFalseSystem (F : Type) [Field F] (a b c cr : F) : Prop :=
  b + b + b ≠ 0 ∧ c = a / (b + b + b) ∧
    3 * b ≠ 0 ∧ cr = (2 * a) / (3 * b) ∧ c ≠ cr

end CircuitTests

namespace SmtUtil

/-- A stream of per-index writes is the concatenation of the individual lines. -/
theorem foldl_append_eq_join (f : Nat → String) (l : List Nat) :
    l.foldl (fun acc i => acc ++ f i) "" = String.join (l.map f) := by
  simp [String.join, List.foldl_map]

/-- C1: the file `default_model` writes is the header line `w12 = {`, then
one line per variable index `i` in `0 .. get_num_vars() - 1` holding the
brace-enclosed pair of model values of the two circuits followed by a
trailing `//` comment carrying the two variable names, then the closing
`};`; `default_model_single` likewise writes `w = {`, one value line per
index with the variable name in a trailing comment, then `};`. -/
theorem c1_dump_file_format (c1 c2 c : SmtCircuit) (m : String → String) :
    (default_model_file c1 c2 m =
        "w12 = \x7b\n" ++
          String.join ((List.range c1.numVars).map (default_model_fileLine c1 c2 m)) ++
          "\x7d;" ∧
      ∀ i : Nat, ∃ sep brtail,
        default_model_fileLine c1 c2 m i =
          "\x7b" ++ m (vtermsOf c1 i) ++ ", " ++ m (vtermsOf c2 i) ++ "\x7d" ++
            ",           // " ++ (vtermsOf c1 i ++ sep ++ vtermsOf c2 i ++ brtail) ++ "\n") ∧
    (default_model_single_file c m =
        "w = \x7b\n" ++
          String.join ((List.range c.numVars).map (default_model_single_fileLine c m)) ++
          "\x7d;" ∧
      ∀ i : Nat, ∃ brtail,
        default_model_single_fileLine c m i =
          m (c.symbolicVars i) ++ ",              // " ++
            (c.symbolicVars i ++ brtail) ++ "\n") := by
  refine ⟨⟨?_, ?_⟩, ?_, ?_⟩
  · rw [default_model_file, foldl_append_eq_join]
  · intro i
    by_cases h : c1.realVariableIndex i = i
    · refine ⟨ ", ", "", ?_⟩
      simp only [default_model_fileLine, if_pos h, String.append_empty, String.append_assoc]
    · refine ⟨ " ,", " -> " ++ Nat.repr (c1.realVariableIndex i), ?_⟩
      simp only [default_model_fileLine, if_neg h, String.append_assoc]
  · rw [default_model_single_file, foldl_append_eq_join]
  · intro i
    by_cases h : c.realVariableIndex i = i
    · refine ⟨ "", ?_⟩
      simp only [default_model_single_fileLine, if_pos h, String.append_empty,
        String.append_assoc]
    · refine ⟨ " -> " ++ Nat.repr (c.realVariableIndex i), ?_⟩
      simp only [default_model_single_fileLine, if_neg h, String.append_assoc]

theorem mem_data_append_left {ch : Char} {s t : String} (h : ch ∈ s.data) :
    ch ∈ (s ++ t).data := by
  simp [String.data_append, h]

theorem mem_data_append_right {ch : Char} {s t : String} (h : ch ∈ t.data) :
    ch ∈ (s ++ t).data := by
  simp [String.data_append, h]

/-- C2: the dump line of `default_model` (resp. `default_model_single`) for
index `i` ends in `" -> "` followed by the canonical index
`real_variable_index[i]` exactly when `real_variable_index[i] != i`, provided
neither the variable names nor the model values contain the character `>`. -/
theorem c2_alias_comment_iff (c1 c2 cs : SmtCircuit) (m : String → String) (i : Nat)
    (h1 : '>' ∉ (vtermsOf c1 i).data) (h2 : '>' ∉ (vtermsOf c2 i).data)
    (h3 : '>' ∉ (m (vtermsOf c1 i)).data) (h4 : '>' ∉ (m (vtermsOf c2 i)).data)
    (h5 : '>' ∉ (cs.symbolicVars i).data) (h6 : '>' ∉ (m (cs.symbolicVars i)).data) :
    ((∃ pre, default_model_fileLine c1 c2 m i =
        pre ++ ( " -> " ++ Nat.repr (c1.realVariableIndex i) ++ "\n")) ↔
      c1.realVariableIndex i ≠ i) ∧
    ((∃ pre, default_model_single_fileLine cs m i =
        pre ++ ( " -> " ++ Nat.repr (cs.realVariableIndex i) ++ "\n")) ↔
      cs.realVariableIndex i ≠ i) := by
  have lbrace : '>' ∉ ( "\x7b" : String).data := by decide
  have lcomma : '>' ∉ ( ", " : String).data := by decide
  have lrbrace : '>' ∉ ( "\x7d" : String).data := by decide
  have lsep : '>' ∉ ( ",           // " : String).data := by decide
  have lsep2 : '>' ∉ ( ",              // " : String).data := by decide
  have lnl : '>' ∉ ( "\n" : String).data := by decide
  have harrow : '>' ∈ ( " -> " : String).data := by decide
  constructor
  · constructor
    · rintro ⟨pre, hpre⟩ heq
      simp only [default_model_fileLine, if_pos heq] at hpre
      have hx : '>' ∈ (pre ++ ( " -> " ++ Nat.repr (c1.realVariableIndex i) ++ "\n")).data :=
        mem_data_append_right (mem_data_append_left (mem_data_append_left harrow))
      rw [← hpre] at hx
      simp only [String.data_append, List.mem_append] at hx
      simp only [h1, h2, h3, h4, lbrace, lcomma, lrbrace, lsep, lnl, or_false, false_or] at hx
    · intro hne
      refine ⟨ "\x7b" ++ m (vtermsOf c1 i) ++ ", " ++ m (vtermsOf c2 i) ++ "\x7d" ++
        ",           // " ++ vtermsOf c1 i ++ " ," ++ vtermsOf c2 i, ?_⟩
      simp only [default_model_fileLine, if_neg hne, String.append_assoc]
  · constructor
    · rintro ⟨pre, hpre⟩ heq
      simp only [default_model_single_fileLine, if_pos heq] at hpre
      have hx : '>' ∈ (pre ++ ( " -> " ++ Nat.repr (cs.realVariableIndex i) ++ "\n")).data :=
        mem_data_append_right (mem_data_append_left (mem_data_append_left harrow))
      rw [← hpre] at hx
      simp only [String.data_append, List.mem_append] at hx
      simp only [h5, h6, lsep2, lnl, or_false, false_or] at hx
    · intro hne
      refine ⟨ m (cs.symbolicVars i) ++ ",              // " ++ cs.symbolicVars i, ?_⟩
      simp only [default_model_single_fileLine, if_neg hne, String.append_assoc]

/-- C2 at a concrete input: circuit `cW` aliases index 1 to index 0, so both
dump lines for index 1 end in the `" -> 0"` marker. -/
theorem c2_alias_comment_iff_witness :
    ((∃ pre, default_model_fileLine cW cW mW 1 =
        pre ++ ( " -> " ++ Nat.repr (cW.realVariableIndex 1) ++ "\n")) ↔
      cW.realVariableIndex 1 ≠ 1) ∧
    ((∃ pre, default_model_single_fileLine cW mW 1 =
        pre ++ ( " -> " ++ Nat.repr (cW.realVariableIndex 1) ++ "\n")) ↔
      cW.realVariableIndex 1 ≠ 1) :=
  c2_alias_comment_iff cW cW cW mW 1 (by decide) (by decide) (by decide) (by decide)
    (by decide) (by decide)

/-- C9: `default_model` collects for index `i` the canonical term
`symbolic_vars[real_variable_index[i]]` of each circuit, so two indices with
the same canonical index dump the same pair of model values;
`default_model_single` collects `symbolic_vars[i]` itself, and a concrete
circuit and model show the aliasing invariant is not forced there. -/
theorem c9_alias_canonical_values :
    (∀ (c : SmtCircuit) (i : Nat), vtermsOf c i = c.symbolicVars (c.realVariableIndex i)) ∧
    (∀ (c1 c2 : SmtCircuit) (m : String → String) (i j : Nat),
      c1.realVariableIndex i = c1.realVariableIndex j →
      c2.realVariableIndex i = c2.realVariableIndex j →
      m (vtermsOf c1 i) = m (vtermsOf c1 j) ∧ m (vtermsOf c2 i) = m (vtermsOf c2 j)) ∧
    (∃ (c : SmtCircuit) (m : String → String) (i j : Nat),
      i < c.numVars ∧ j < c.numVars ∧ i ≠ j ∧
      c.realVariableIndex i = c.realVariableIndex j ∧
      m (c.symbolicVars i) ≠ m (c.symbolicVars j)) := by
  refine ⟨fun c i => rfl, ?_, ?_⟩
  · intro c1 c2 m i j hij1 hij2
    constructor
    · unfold vtermsOf
      rw [hij1]
    · unfold vtermsOf
      rw [hij2]
  · refine ⟨cW, mW, 0, 1, by decide, by decide, by decide, by decide, by decide⟩

/-- C10: the dump utilities are deterministic: two runs whose solver models
return equal value maps produce identical file contents and identical `info`
output for both `default_model` and `default_model_single`. -/
theorem c10_deterministic (special : List String) (c1 c2 c : SmtCircuit)
    (m mo : String → String) (h : ∀ s, m s = mo s) :
    default_model_file c1 c2 m = default_model_file c1 c2 mo ∧
    default_model_info special c1 c2 m = default_model_info special c1 c2 mo ∧
    default_model_single_file c m = default_model_single_file c mo ∧
    default_model_single_info special c m = default_model_single_info special c mo := by
  have hm : m = mo := funext h
  subst hm
  exact ⟨rfl, rfl, rfl, rfl⟩

/-- C10 at a concrete input: two runs over the circuit `cW` with the model
`mW` on both sides agree on all four outputs. -/
theorem c10_deterministic_witness :
    default_model_file cW cW mW = default_model_file cW cW mW ∧
    default_model_info [ "a" ] cW cW mW = default_model_info [ "a" ] cW cW mW ∧
    default_model_single_file cW mW = default_model_single_file cW mW ∧
    default_model_single_info [ "a" ] cW mW = default_model_single_info [ "a" ] cW mW :=
  c10_deterministic [ "a" ] cW cW cW mW mW (fun _ => rfl)

end SmtUtil

namespace avm2

/-- C5: instantiated at `lookup_bytecode_to_read_unary_lookup_settings`, the
lookup constraint says exactly that every source tuple
`(bc_decomposition_bytes_to_read, bc_decomposition_bytes_to_read_unary)` of a
row selected by `bc_decomposition_sel` appears among the tuples
`(precomputed_clk, precomputed_as_unary)` of rows selected by
`precomputed_sel_unary`. -/
theorem c5_lookup_binds_columns (F : Type) [One F] (trace : List (AllEntities F)) :
    genericLookupEnforces lookup_bytecode_to_read_unary_lookup_settings trace ↔
      ∀ row ∈ trace, row.bc_decomposition_sel = 1 →
        ∃ rowd ∈ trace, rowd.precomputed_sel_unary = 1 ∧
          row.bc_decomposition_bytes_to_read = rowd.precomputed_clk ∧
          row.bc_decomposition_bytes_to_read_unary = rowd.precomputed_as_unary := by
  simp only [genericLookupEnforces, lookup_bytecode_to_read_unary_lookup_settings, colVal,
    List.map_cons, List.map_nil, List.cons.injEq, and_true]

/-- C6: the generated class `lookup_bytecode_to_read_unary_relation` only
adds the constant `NAME` to the generic template instantiated with
`lookup_bytecode_to_read_unary_lookup_settings`: for every behavior `G` of
the generic template, its evaluation is exactly
`G lookup_bytecode_to_read_unary_lookup_settings`. -/
theorem c6_relation_is_generic_instantiation (α : Type) (G : LookupSettings → α) :
    (lookup_bytecode_to_read_unary_relation G).2 =
        G lookup_bytecode_to_read_unary_lookup_settings ∧
      (lookup_bytecode_to_read_unary_relation G).1 = "LOOKUP_BYTECODE_TO_READ_UNARY" :=
  ⟨rfl, rfl⟩

/-- C7: on selector values in \x7b0, 1\x7d, `compute_inverse_exists` returns
`is_operation + is_table_entry - is_operation * is_table_entry`, which lies
in \x7b0, 1\x7d and equals 1 exactly when
`inverse_polynomial_is_computed_at_row` holds. -/
theorem c7_compute_inverse_exists_or (F : Type) [CommRing F] [Nontrivial F]
    (e : AllEntities F)
    (hb : e.bc_decomposition_sel = 0 ∨ e.bc_decomposition_sel = 1)
    (hp : e.precomputed_sel_unary = 0 ∨ e.precomputed_sel_unary = 1) :
    compute_inverse_exists e =
        e.bc_decomposition_sel + e.precomputed_sel_unary -
          e.bc_decomposition_sel * e.precomputed_sel_unary ∧
      (compute_inverse_exists e = 0 ∨ compute_inverse_exists e = 1) ∧
      (compute_inverse_exists e = 1 ↔ inverse_polynomial_is_computed_at_row e) := by
  refine ⟨rfl, ?_, ?_⟩ <;>
    rcases hb with hb | hb <;> rcases hp with hp | hp <;>
      simp [compute_inverse_exists, inverse_polynomial_is_computed_at_row, hb, hp,
        zero_ne_one, one_ne_zero]

/-- C7 at a concrete input: the `Int` row with only the source selector set. -/
theorem c7_compute_inverse_exists_or_witness :
    compute_inverse_exists rowW =
        rowW.bc_decomposition_sel + rowW.precomputed_sel_unary -
          rowW.bc_decomposition_sel * rowW.precomputed_sel_unary ∧
      (compute_inverse_exists rowW = 0 ∨ compute_inverse_exists rowW = 1) ∧
      (compute_inverse_exists rowW = 1 ↔ inverse_polynomial_is_computed_at_row rowW) :=
  c7_compute_inverse_exists_or Int rowW (Or.inr rfl) (Or.inl rfl)

/-- C8: the three entity accessors agree and return the fixed tuple of the 8
bound column references, whose length is `4 + 2 * LOOKUP_TUPLE_SIZE`. -/
theorem c8_entities_agree (F : Type) (e : AllEntities F) :
    get_const_entities e = get_entities e ∧
      get_nonconst_entities e = get_entities e ∧
      (get_entities e).length =
        4 + 2 * lookup_bytecode_to_read_unary_lookup_settings.LOOKUP_TUPLE_SIZE ∧
      get_entities e =
        [ e.lookup_bytecode_to_read_unary_inv,
          e.lookup_bytecode_to_read_unary_counts,
          e.bc_decomposition_sel,
          e.precomputed_sel_unary,
          e.bc_decomposition_bytes_to_read,
          e.bc_decomposition_bytes_to_read_unary,
          e.precomputed_clk,
          e.precomputed_as_unary ] :=
  ⟨rfl, rfl, rfl, rfl⟩

end avm2

namespace CircuitTests

/-- C3: over any field, the constraints of `TEST(circuit, expressionTrue)`
and of `TEST(circuit, multiplicationTrueKind)` are unsatisfiable: no witness
makes the circuit for `(2a)/(3b)` disagree with the arithmetic identity, so
`check()` returns false. -/
theorem c3_equivalence_unsat (F : Type) [Field F] :
    (¬ ∃ a b c cr : F, expressionTrueSystem F a b c cr) ∧
    (¬ ∃ a b c cr : F, multiplicationTrueKindSystem F a b c cr) := by
  constructor
  · rintro ⟨a, b, c, cr, hb, hc, hb2, hcr, hne⟩
    apply hne
    have e1 : a + a = 2 * a := by ring
    have e2 : b + b + b = 2 * b + b := by ring
    rw [hc, hcr, e1, e2]
  · rintro ⟨a, b, c, cr, hb, hc, hcr, hne⟩
    apply hne
    have e2 : b + b + b = 3 * b := by ring
    have hb3 : (3 : F) * b ≠ 0 := by rw [← e2]; exact hb
    have hcr2 : cr = (2 * a) / (3 * b) := by
      rw [eq_div_iff hb3]
      calc cr * (3 * b) = cr * 3 * b := by ring
        _ = 2 * a := hcr
    have e1 : a + a = 2 * a := by ring
    rw [hc, hcr2, e2, e1]

/-- C4: over any field in which 3 is nonzero, the constraints of
`TEST(circuit, multiplicationFalse)` are satisfiable: the mistaken circuit
`c = a/(3b)` admits a witness disagreeing with `cr = (2a)/(3b)`, so
`check()` returns true and a model exists for `a`, `b`, `c`, `cr`. -/
theorem c4_mistake_sat (F : Type) [Field F] (h3 : (3 : F) ≠ 0) :
    ∃ a b c cr : F, multiplicationFalseSystem F a b c cr := by
  refine ⟨1, 1, 1 / 3, 2 / 3, ?_, ?_, ?_, ?_, ?_⟩
  · have e : (1 : F) + 1 + 1 = 3 := by ring
    rw [e]
    exact h3
  · have e : (1 : F) + 1 + 1 = 3 := by ring
    rw [e]
  · have e : (3 : F) * 1 = 3 := by ring
    rw [e]
    exact h3
  · have e2 : (2 : F) * 1 = 2 := by ring
    have e3 : (3 : F) * 1 = 3 := by ring
    rw [e2, e3]
  · intro heq
    have hx : (1 : F) / 3 * 3 = 2 / 3 * 3 := congrArg (fun x : F => x * 3) heq
    rw [div_mul_cancel₀ _ h3, div_mul_cancel₀ _ h3] at hx
    have h0 : (1 : F) = 0 := by linear_combination -hx
    exact one_ne_zero h0

/-- C4 at a concrete input: over the rationals, 3 is nonzero, and the
mistaken circuit's constraints have a model. -/
theorem c4_mistake_sat_witness :
    ∃ a b c cr : ℚ, multiplicationFalseSystem ℚ a b c cr :=
  c4_mistake_sat ℚ (by norm_num)

end CircuitTests
